import Mathlib

/-!
# Verification of the insta-scrape-profile fetch orchestration engine

Shallow embedding of `src/main.py` (the only pipeline source file of the
repository) together with theorems settling the frozen specification claims.

The embedding models:
* JSON-shaped values (`JValue`) and Python-dict records (`Rec`, insertion
  ordered association lists with in-place overwrite on assignment);
* the fault taxonomy distinguished by the code's `except` clauses (`Fault`);
* `fetch_profile` (`fetchProfile`): status check, envelope navigation,
  not-found short circuit, field extraction loop over `DESIRED_FIELDS`;
* `fetch_with_retries` (`fetchWithRetries`): the bounded retry loop with
  exponential backoff `BASE_DELAY_SECONDS * 2 ^ attempt`;
* `process_and_save_username` (`processAndSave`): push-to-dataset gating;
* `main` (`mainRun`): admission filtering via Python `strip("@ ")`, the
  decrementing `total_usernames` counter, and completion-order progress
  reporting (`as_completed` order is a parameter, constrained to be a
  permutation of the task indices);
* the Text Extractor of the specification (no such code exists under the
  repository sources, so it is modelled from the spec, as marked below).
-/

set_option maxRecDepth 16000

namespace InstaScrape

/-- JSON-shaped values, as produced by `r.json()` in `fetch_profile`.
Python `None` is `JValue.null`. -/
inductive JValue where
  | null
  | bool (b : Bool)
  | num (n : Int)
  | str (s : String)
  | arr (elems : List JValue)
  | obj (fields : List (String × JValue))

/-- A Python dict with string keys, in insertion order: the shape of the
records built by `fetch_profile` and returned by `fetch_with_retries`. -/
abbrev Rec := List (String × JValue)

/-- Python dict assignment `d[k] = v`: overwrite in place if the key exists,
else append at the end (insertion order). -/
def setKey : Rec → String → JValue → Rec
  | [], k, v => [(k, v)]
  | (k', v') :: rest, k, v =>
    if k' = k then (k, v) :: rest else (k', v') :: setKey rest k v

/-- Python `d.get(k)` (equivalently `d[k]` when present): the value stored at
the first matching key, if any. -/
def getKey : Rec → String → Option JValue
  | [], _ => none
  | (k', v') :: rest, k => if k' = k then some v' else getKey rest k

/-- Python truthiness on JSON-shaped values: `None`, `False`, `0`, `""`,
`[]` and `{}` are falsy (the `if not user_data:` test in `fetch_profile`). -/
def JValue.falsy : JValue → Bool
  | .null => true
  | .bool b => !b
  | .num n => n == 0
  | .str s => s.isEmpty
  | .arr elems => elems.isEmpty
  | .obj fields => fields.isEmpty

/-- The faults the retry wrapper distinguishes, mirroring the two `except`
clauses of `fetch_with_retries`: `httpx.HTTPStatusError` (carrying the
response status), `httpx.ProxyError`, `httpx.ReadTimeout`, and every other
exception (carrying its type name and message). -/
inductive Fault where
  | httpStatusError (status : Nat)
  | proxyError
  | readTimeout
  | other (name : String) (msg : String)

/-- A fault is caught by the first `except` clause of `fetch_with_retries`
(i.e. retried) exactly when it is an `HTTPStatusError`, `ProxyError` or
`ReadTimeout`. -/
def Fault.retryable : Fault → Bool
  | .httpStatusError _ => true
  | .proxyError => true
  | .readTimeout => true
  | .other _ _ => false

/-- Python `type(e).__name__` for the modelled faults. -/
def Fault.typeName : Fault → String
  | .httpStatusError _ => "HTTPStatusError"
  | .proxyError => "ProxyError"
  | .readTimeout => "ReadTimeout"
  | .other name _ => name

/-- Python `str(e)` for the modelled faults, used only in the
unexpected-error record message. -/
def Fault.message : Fault → String
  | .httpStatusError status => toString status
  | .proxyError => ""
  | .readTimeout => ""
  | .other _ msg => msg

/-- Outcome of one `client.get` call together with `r.json()`: either a
response with a given status and parsed body, or a raised fault (transport
errors, proxy acquisition errors, body-parse errors and so on). -/
inductive NetOutcome where
  | ok (status : Nat) (body : JValue)
  | fault (f : Fault)

/-- Python `v.get(k, dflt)`: succeeds only when `v` is a dict, raising
`AttributeError` otherwise (the raised fault is an `other` fault for the
retry wrapper). -/
def pyDictGet (v : JValue) (k : String) (dflt : Option JValue) :
    Except Fault (Option JValue) :=
  match v with
  | .obj fields => .ok ((getKey fields k) <|> dflt)
  | _ => .error (.other "AttributeError" "object has no attribute get")

/-- Embedding of `DESIRED_FIELDS` from `src/main.py`, verbatim and in order. -/
def DESIRED_FIELDS : List String := [
  "about", "account_badges", "account_category", "account_type",
  "active_standalone_fundraisers", "additional_business_addresses",
  "adjusted_banners_order", "ads_incentive_expiration_date", "ads_page_id",
  "ads_page_name", "allow_manage_memorialization", "auto_expand_chaining",
  "avatar_status", "bio_links", "biography", "biography_email",
  "biography_with_entities", "birthday_today_visibility_for_viewer",
  "broadcast_chat_preference_status", "business_contact_method",
  "can_add_fb_group_link_on_profile", "can_hide_category",
  "can_hide_public_contacts", "can_use_affiliate_partnership_messaging_as_brand",
  "can_use_affiliate_partnership_messaging_as_creator",
  "can_use_branded_content_discovery_as_brand",
  "can_use_branded_content_discovery_as_creator",
  "can_use_paid_partnership_messaging_as_creator", "category", "category_id",
  "chaining_results", "chaining_suggestions", "chaining_upsell_cards",
  "charity_profile_fundraiser_info", "contact_phone_number",
  "creator_shopping_info", "current_catalog_id", "direct_messaging",
  "disable_profile_shop_cta", "eligible_for_text_app_activation_badge",
  "enable_add_school_in_edit_profile", "existing_user_age_collection_enabled",
  "external_lynx_url", "external_url", "fan_club_info",
  "fb_page_call_to_action_id", "fbe_app_id", "fbe_label", "fbe_partner",
  "fbe_url", "fbid_v2", "feed_post_reshare_disabled", "follow_friction_type",
  "follower_count", "following_count", "full_name",
  "has_active_charity_business_profile_fundraiser", "has_anonymous_profile_picture",
  "has_biography_translation", "has_chaining", "has_collab_collections",
  "has_ever_selected_topics", "has_exclusive_feed_content",
  "has_fan_club_subscriptions", "has_gen_ai_personas_for_profile_banner",
  "has_guides", "has_highlight_reels", "has_ig_profile", "has_igtv_series",
  "has_music_on_profile", "has_nme_badge", "has_private_collections",
  "has_public_tab_threads", "has_videos", "has_views_fetching",
  "hd_multiple_profile_picture_urls", "hd_profile_pic_url_info",
  "hd_profile_pic_versions", "highlight_reshare_disabled",
  "highlights_tray_type", "id", "include_direct_blacklist_status",
  "instagram_pk", "interop_messaging_user_fbid", "is_active_on_text_post_app",
  "is_auto_confirm_enabled_for_all_reciprocal_follow_requests", "is_bestie",
  "is_business", "is_call_to_action_enabled", "is_category_tappable",
  "is_creator_agent_enabled", "is_direct_roll_call_enabled",
  "is_eligible_for_diverse_owned_business_info",
  "is_eligible_for_meta_verified_enhanced_link_sheet",
  "is_eligible_for_meta_verified_enhanced_link_sheet_consumption",
  "is_eligible_for_meta_verified_label",
  "is_eligible_for_meta_verified_links_in_reels",
  "is_eligible_for_meta_verified_multiple_addresses_consumption",
  "is_eligible_for_meta_verified_multiple_addresses_creation",
  "is_eligible_for_meta_verified_related_accounts",
  "is_eligible_for_post_boost_mv_upsell", "is_eligible_for_request_message",
  "is_eligible_for_slide", "is_eligible_to_display_diverse_owned_business_info",
  "is_facebook_onboarded_charity", "is_favorite", "is_favorite_for_clips",
  "is_favorite_for_highlights", "is_favorite_for_stories", "is_in_canada",
  "is_interest_account", "is_memorialized",
  "is_meta_verified_related_accounts_display_enabled", "is_new_to_instagram",
  "is_opal_enabled", "is_open_to_collab", "is_oregon_custom_gender_consented",
  "is_parenting_account", "is_potential_business", "is_prime_onboarding_account",
  "is_private", "is_profile_audio_call_enabled",
  "is_profile_broadcast_sharing_enabled", "is_profile_picture_expansion_enabled",
  "is_profile_search_enabled", "is_recon_ad_cta_on_profile_eligible_with_viewer",
  "is_regulated_c18", "is_regulated_news_in_viewer_location",
  "is_remix_setting_enabled_for_posts", "is_remix_setting_enabled_for_reels",
  "is_ring_creator", "is_secondary_account_creation", "is_stories_teaser_muted",
  "is_supervision_features_enabled", "is_verified", "is_whatsapp_linked",
  "latest_besties_reel_media", "latest_reel_media", "linked_fb_info",
  "live_subscription_status", "location_data", "media_count",
  "merchant_checkout_style", "meta_verified_benefits_info",
  "meta_verified_related_accounts_count", "meta_verified_related_accounts_info",
  "multiple_profile_picture_urls", "nametag",
  "nonpro_can_maybe_see_profile_hypercard", "not_meta_verified_friction_info",
  "open_external_url_with_in_app_browser", "page_id", "page_name",
  "pinned_channels_info", "posts_subscription_status",
  "primary_profile_link_type", "professional_conversion_suggested_account_type",
  "profile_context", "profile_context_facepile_users",
  "profile_context_links_with_user_ids", "profile_overlay_info",
  "profile_pic_genai_tool_info", "profile_pic_id", "profile_pic_url",
  "profile_pic_url_hd", "profile_reels_sorting_eligibility", "profile_type",
  "pronouns", "public_email", "public_phone_country_code",
  "public_phone_number", "recon_features", "recs_from_friends",
  "reels_subscription_status", "relevant_news_regulation_locations",
  "remove_message_entrypoint", "seller_shoppable_feed_type",
  "should_show_tagged_tab", "show_account_transparency_details",
  "show_blue_badge_on_main_profile", "show_post_insights_entry_point",
  "show_schools_badge", "show_shoppable_feed", "show_wa_link_on_profile",
  "spam_follower_setting_enabled", "stories_subscription_status",
  "text_app_last_visited_time", "text_post_app_badge_label",
  "text_post_new_post_count", "third_party_downloads_enabled",
  "threads_profile_glyph_url", "total_ar_effects", "total_igtv_videos",
  "transparency_product_enabled", "trial_clips_enabled",
  "trial_clips_rate_limiting", "upcoming_events", "username",
  "views_on_grid_status", "whatsapp_number"
]

/-- The record returned by `fetch_profile` when the envelope carries no
(truthy) user object. -/
def notFoundRec (username : String) : Rec :=
  [("username", .str username),
   ("error", .str "Profile does not exist or is private")]

/-- The success record built by `fetch_profile`: seed `{"username": username}`,
then `output[field] = user_data.get(field)` for each field of
`DESIRED_FIELDS` in order, then `output["error"] = None`. Kept irreducible
so that elaboration never unfolds the 191-field loop by accident; proofs
about it unseal it explicitly. -/
@[irreducible] def extractRec (username : String) (userFields : List (String × JValue)) :
    Rec :=
  setKey
    (DESIRED_FIELDS.foldl
      (fun acc field => setKey acc field ((getKey userFields field).getD .null))
      [("username", .str username)])
    "error" .null

/-- Embedding of `fetch_profile(client, username)` from `src/main.py`, with the network
interaction abstracted into a `NetOutcome`: `raise_for_status` (httpx
raises `HTTPStatusError` for every non-2xx response, redirects included —
`is_success` is `200 ≤ status < 300`), `r.json().get("data", {}).get("user")`, the
not-found short circuit, the extraction loop over `DESIRED_FIELDS` with
`user_data.get(field)` defaulting to `None`, and the final
`output["error"] = None`. Raised faults are returned in the `Except` error
channel, as `fetch_profile` re-raises every exception. -/
def fetchProfile (net : NetOutcome) (username : String) : Except Fault Rec :=
  match net with
  | .fault f => .error f
  | .ok status body =>
    if status < 200 ∨ 300 ≤ status then .error (.httpStatusError status)
    else
      match pyDictGet body "data" (some (.obj [])) with
      | .error f => .error f
      | .ok dataOpt =>
        match pyDictGet (dataOpt.getD (.obj [])) "user" none with
        | .error f => .error f
        | .ok userOpt =>
          match userOpt with
          | none => .ok (notFoundRec username)
          | some userData =>
            if userData.falsy then .ok (notFoundRec username)
            else
              match userData with
              | .obj userFields => .ok (extractRec username userFields)
              | _ => .error (.other "AttributeError"
                  "object has no attribute get")

/-- Embedding of `MAX_RETRIES` from `fetch_with_retries`. -/
def MAX_RETRIES : Nat := 3

/-- Embedding of `BASE_DELAY_SECONDS` from `fetch_with_retries`. -/
def BASE_DELAY_SECONDS : Nat := 2

/-- The record returned by `fetch_with_retries` when the attempt loop is
exhausted: `{"username": ..., "error": f"Failed after 3 attempts: ..."}`. -/
def exhaustedRec (username : String) (lastError : Option Fault) : Rec :=
  [("username", .str username),
   ("error", .str ("Failed after " ++ toString MAX_RETRIES ++ " attempts: " ++
      (match lastError with
       | some f => f.typeName
       | none => "NoneType")))]

/-- The record returned by `fetch_with_retries` from its second `except`
clause (`except Exception`). -/
def unexpectedRec (username : String) (f : Fault) : Rec :=
  [("username", .str username),
   ("error", .str ("An unexpected error occurred: " ++ f.typeName ++ ": " ++
      f.message))]

/-- Observable result of one `fetch_with_retries` call: the returned record,
how many stage-1 attempts were made, and the `asyncio.sleep` delays
performed between/after attempts, in order. -/
structure RetryResult where
  record : Rec
  attempts : Nat
  delays : List Nat

/-- The `for attempt in range(MAX_RETRIES)` loop of `fetch_with_retries`.
`attempt` is the 0-based index of the next attempt, `rem` how many loop
iterations remain, `lastError` the fault of the previous retryable failure,
`delays` the sleeps performed so far (most recent first). Each attempt's
network interaction is `netAt attempt` (a fresh proxy session per attempt). -/
def retryGo (netAt : Nat → NetOutcome) (username : String) :
    Nat → Nat → Option Fault → List Nat → RetryResult
  | attempt, 0, lastError, delays =>
    ⟨exhaustedRec username lastError, attempt, delays.reverse⟩
  | attempt, rem + 1, _lastError, delays =>
    match fetchProfile (netAt attempt) username with
    | .ok record => ⟨record, attempt + 1, delays.reverse⟩
    | .error f =>
      if f.retryable then
        retryGo netAt username (attempt + 1) rem (some f)
          (BASE_DELAY_SECONDS * 2 ^ attempt :: delays)
      else ⟨unexpectedRec username f, attempt + 1, delays.reverse⟩

/-- Embedding of `fetch_with_retries(username, proxy_config)` from `src/main.py`. -/
def fetchWithRetries (netAt : Nat → NetOutcome) (username : String) :
    RetryResult :=
  retryGo netAt username 0 MAX_RETRIES none []

/-- Result of one `process_and_save_username` call: the terminal record and
whether it was pushed to the dataset (`Actor.push_data` is called exactly
when `result.get("error") is None`). -/
structure ProcResult where
  record : Rec
  pushed : Bool

/-- Python `result.get("error") is None`: true when the key is absent or its
stored value is `None`. -/
def isNoneVal : Option JValue → Bool
  | none => true
  | some .null => true
  | some _ => false

/-- Embedding of `process_and_save_username(username, proxy_config, semaphore)` from
`src/main.py` (the semaphore bounds concurrency but does not change the
per-item data flow). -/
def processAndSave (netAt : Nat → NetOutcome) (username : String) :
    ProcResult :=
  let result := (fetchWithRetries netAt username).record
  ⟨result, isNoneVal (getKey result "error")⟩

/-- Python `s.strip("@ ")`: remove every leading and every trailing
character belonging to the set `{'@', ' '}`. -/
def pyStrip (chars : List Char) (s : String) : String :=
  String.mk
    (((s.toList.dropWhile (chars.contains ·)).reverse.dropWhile
        (chars.contains ·)).reverse)

/-- Embedding of `clean_username = username.strip("@ ")` from `main`. -/
def cleanUsername (s : String) : String := pyStrip ['@', ' '] s

/-- State of the admission loop of `main`: the running `total_usernames`
counter (initialized to `len(usernames)` and decremented for each
empty-after-strip input) and the usernames handed to tasks, in order. -/
structure Admission where
  total : Nat
  tasks : List String
deriving DecidableEq

/-- One iteration of the `for username in usernames` admission loop of
`main`. -/
def admitStep (a : Admission) (username : String) : Admission :=
  let clean := cleanUsername username
  if clean = "" then { a with total := a.total - 1 }
  else { a with tasks := a.tasks ++ [clean] }

/-- The whole admission loop of `main`: `total_usernames = len(usernames)`
followed by the filtering loop. -/
def admitAll (usernames : List String) : Admission :=
  usernames.foldl admitStep ⟨usernames.length, []⟩

/-- One progress notification, as logged and set as status message by the
`as_completed` loop of `main`: the 1-based `processed_count`, the value of
`result.get('username', 'N/A')`, the value of `result.get("error")`, and
the marker chosen by the truthiness of `result.get("error")`. -/
structure ProgressEvent where
  count : Nat
  shownUsername : JValue
  errorVal : Option JValue
  isFailure : Bool

/-- Build the progress event for the record drained in position `idx`
(0-based) of the completion order. -/
def mkEvent (idx : Nat) (record : Rec) : ProgressEvent :=
  { count := idx + 1
  , shownUsername := (getKey record "username").getD (.str "N/A")
  , errorVal := getKey record "error"
  , isFailure :=
      match getKey record "error" with
      | none => false
      | some v => !v.falsy }

/-- Observable result of one `main` run. -/
structure MainRun where
  total : Nat
  taskRecords : List ProcResult
  progress : List ProgressEvent
  completedFinal : Nat

/-- Embedding of `main()` from `src/main.py`, with the network abstracted: `env j u n` is
the network interaction of attempt `n` of the task launched in position `j`
for cleaned username `u`. `order` is the order in which `asyncio.as_completed`
drains the task futures (a permutation of the task indices, supplied
externally since completion order is not determined by the program). -/
def mainRun (env : Nat → String → Nat → NetOutcome)
    (usernames : List String) (order : List Nat) : MainRun :=
  let adm := admitAll usernames
  let procs := adm.tasks.enum.map (fun ju => processAndSave (env ju.1 ju.2) ju.2)
  let recs := procs.map (·.record)
  let events := (order.map (fun i => recs.getD i [])).enum.map
    (fun ir => mkEvent ir.1 ir.2)
  ⟨adm.total, procs, events, order.length⟩

/-- Normalization following the specification's words, for comparison with
the code's `strip("@ ")` admission: "trimmed of leading "@" and surrounding
whitespace" — trim surrounding whitespace, drop one leading `@`, trim
surrounding whitespace again. -/
def specNormalize (s : String) : String :=
  let ws := fun c : Char => c.isWhitespace
  let l := ((s.toList.dropWhile ws).reverse.dropWhile ws).reverse
  let l := match l with
    | '@' :: rest => rest
    | other => other
  String.mk (((l.dropWhile ws).reverse.dropWhile ws).reverse)

/-! ## Text Extractor

Modelled from the spec: no Text Extractor exists among the repository's
source files; the definitions below follow §4.3 of the specification
("independent pattern matches" for email-shaped tokens, loose digit-grouped
phone-shaped tokens, and `@handle` mention tokens over letters, digits,
underscore and dot; matches in first-to-last order of appearance; no
deduplication; absent or empty input yields three empty sequences). -/

/-- Modelled from the spec: characters allowed in the local part of an
email-shaped token. -/
def isLocalChar (c : Char) : Bool :=
  c.isAlphanum || c = '.' || c = '_' || c = '%' || c = '+' || c = '-'

/-- Modelled from the spec: characters allowed in the domain part of an
email-shaped token. -/
def isDomainChar (c : Char) : Bool :=
  c.isAlphanum || c = '.' || c = '-'

/-- Modelled from the spec: the identifier character set of a mention
handle — letters, digits, underscore, dot. -/
def isHandleChar (c : Char) : Bool :=
  c.isAlphanum || c = '_' || c = '.'

/-- Modelled from the spec: separators tolerated inside a phone-shaped
token — space, hyphen, dot. -/
def isPhoneSep (c : Char) : Bool :=
  c = ' ' || c = '-' || c = '.'

/-- Modelled from the spec: a domain is email-shaped when it ends in
`.<tld>` with an alphabetic top-level part of length at least 2 and a
nonempty part before that final dot. -/
def domainShaped (domain : List Char) : Bool :=
  let tld := domain.reverse.takeWhile Char.isAlpha
  match domain.reverse.dropWhile Char.isAlpha with
  | '.' :: before => 2 ≤ tld.length && !before.isEmpty
  | _ => false

/-- A matcher inspects the previous character (for word boundaries) and the
remaining text; on success it yields the matched token and the number of
characters consumed (always at least 1). -/
abbrev Matcher := Option Char → List Char → Option (String × Nat)

/-- Modelled from the spec: match an email-shaped token
`<local>@<domain>` at the current position. -/
def emailMatch : Matcher := fun _prev l =>
  let localPart := l.takeWhile isLocalChar
  if localPart.isEmpty then none
  else
    match l.drop localPart.length with
    | '@' :: afterAt =>
      let domain := afterAt.takeWhile isDomainChar
      if domainShaped domain then
        some (String.mk (localPart ++ '@' :: domain),
          localPart.length + 1 + domain.length)
      else none
    | _ => none

/-- Modelled from the spec: match a `@handle` mention at the current
position, only at a word boundary (so the `@b.com` inside `a@b.com` is not
a mention). -/
def mentionMatch : Matcher := fun prev l =>
  match l with
  | '@' :: afterAt =>
    let boundary := match prev with
      | none => true
      | some p => !(isLocalChar p)
    if boundary then
      let handle := afterAt.takeWhile isHandleChar
      if handle.isEmpty then none
      else some (String.mk handle, 1 + handle.length)
    else none
  | _ => none

/-- Modelled from the spec: match a loose phone-shaped token at the current
position — an optional `+`, then digit groups separated by space, hyphen or
dot, trailing separators excluded, accepted when it carries 8 to 15 digits
in total. -/
def phoneMatch : Matcher := fun prev l =>
  let boundary := match prev with
    | none => true
    | some p => !(p.isDigit || p = '+')
  if !boundary then none
  else
    let parts := match l with
      | '+' :: r => (1, r)
      | _ => ((0 : Nat), l)
    match parts.2 with
    | c :: _ =>
      if c.isDigit then
        let run := parts.2.takeWhile (fun ch => ch.isDigit || isPhoneSep ch)
        let body := (run.reverse.dropWhile isPhoneSep).reverse
        let digitCount := (body.filter Char.isDigit).length
        if 8 ≤ digitCount && digitCount ≤ 15 then
          some (String.mk
            ((if parts.1 = 1 then ['+'] else []) ++ body),
            parts.1 + body.length)
        else none
      else none
    | [] => none

/-- Left-to-right scan driven by a matcher, fuelled for structural
termination (`fuel` at least the text length is always enough, since every
step consumes at least one character). Returns each match with the 0-based
position where it starts. -/
def scanFuel (matcher : Matcher) :
    Nat → Nat → Option Char → List Char → List (Nat × String)
  | 0, _, _, _ => []
  | _ + 1, _, _, [] => []
  | fuel + 1, i, prev, c :: cs =>
    match matcher prev (c :: cs) with
    | some (tok, k) =>
      (i, tok) :: scanFuel matcher fuel (i + max k 1)
        (((c :: cs).take (max k 1)).getLast?) ((c :: cs).drop (max k 1))
    | none => scanFuel matcher fuel (i + 1) (some c) cs

/-- Scan a whole text with a matcher. -/
def scanText (matcher : Matcher) (text : String) : List (Nat × String) :=
  scanFuel matcher text.toList.length 0 none text.toList

/-- Result of the Text Extractor: the three output sequences. -/
structure Extracted where
  emails : List String
  phones : List String
  mentions : List String
deriving DecidableEq

/-- Modelled from the spec: `extract(text: string | absent)` — three
independent scans; absent or empty input yields three empty sequences. -/
def extract (text : Option String) : Extracted :=
  match text with
  | none => ⟨[], [], []⟩
  | some t =>
    if t.isEmpty then ⟨[], [], []⟩
    else
      ⟨(scanText emailMatch t).map Prod.snd,
       (scanText phoneMatch t).map Prod.snd,
       (scanText mentionMatch t).map Prod.snd⟩

/-! ## Helper lemmas -/

theorem getKey_setKey_self (d : Rec) (k : String) (v : JValue) :
    getKey (setKey d k v) k = some v := by
  induction d with
  | nil => simp [setKey, getKey]
  | cons hd tl ih =>
    by_cases h : hd.1 = k <;> simp [setKey, getKey, h, ih]

theorem getKey_setKey_ne (d : Rec) (k k' : String) (v : JValue)
    (h : k' ≠ k) : getKey (setKey d k v) k' = getKey d k' := by
  have h' : ¬(k = k') := fun he => h he.symm
  induction d with
  | nil => simp [setKey, getKey, h']
  | cons hd tl ih =>
    obtain ⟨a, b⟩ := hd
    by_cases hk : a = k
    · simp [setKey, getKey, hk, h']
    · by_cases hk' : a = k' <;> simp [setKey, getKey, hk, hk', h, ih]

theorem getKey_fold_not_mem (fields : List String) (g : String → JValue)
    (init : Rec) (f : String) (h : f ∉ fields) :
    getKey (fields.foldl (fun acc fl => setKey acc fl (g fl)) init) f
      = getKey init f := by
  induction fields generalizing init with
  | nil => rfl
  | cons hd tl ih =>
    simp only [List.mem_cons, not_or] at h
    simp only [List.foldl_cons]
    rw [ih _ h.2, getKey_setKey_ne _ _ _ _ h.1]

theorem getKey_fold_mem (fields : List String) (g : String → JValue)
    (init : Rec) (f : String) (h : f ∈ fields) :
    getKey (fields.foldl (fun acc fl => setKey acc fl (g fl)) init) f
      = some (g f) := by
  induction fields generalizing init with
  | nil => cases h
  | cons hd tl ih =>
    by_cases hm : f ∈ tl
    · simp only [List.foldl_cons]
      exact ih _ hm
    · have hf : f = hd := by
        rcases List.mem_cons.mp h with h' | h'
        · exact h'
        · exact absurd h' hm
      subst hf
      simp only [List.foldl_cons]
      rw [getKey_fold_not_mem _ _ _ _ hm, getKey_setKey_self]

set_option maxHeartbeats 2000000 in
/-- Every record `fetch_profile` returns (rather than raises) is either the
not-found record or a full field-extraction record. -/
theorem fetchProfile_ok_cases (net : NetOutcome) (username : String)
    (r : Rec) (h : fetchProfile net username = .ok r) :
    r = notFoundRec username ∨
      ∃ userFields, r = extractRec username userFields := by
  unfold fetchProfile at h
  split at h
  · cases h
  · split at h
    · cases h
    · split at h
      · cases h
      · split at h
        · cases h
        · split at h
          · cases h
            exact .inl rfl
          · split at h
            · cases h
              exact .inl rfl
            · split at h
              · cases h
                exact .inr ⟨_, rfl⟩
              · cases h

unseal extractRec in
/-- The extraction record always maps `error` to `None`. -/
theorem extractRec_error (username : String)
    (userFields : List (String × JValue)) :
    getKey (extractRec username userFields) "error" = some .null :=
  getKey_setKey_self _ _ _

/-- Every record `fetch_profile` returns (rather than raises) carries an
`error` key. -/
theorem fetchProfile_ok_has_error (net : NetOutcome) (username : String)
    (r : Rec) (h : fetchProfile net username = .ok r) :
    ∃ v, getKey r "error" = some v := by
  rcases fetchProfile_ok_cases net username r h with hr | ⟨userFields, hr⟩
  · exact ⟨_, by rw [hr]; rfl⟩
  · exact ⟨_, by rw [hr]; exact extractRec_error _ _⟩

/-- Defining equation of `retryGo` at zero remaining iterations. -/
theorem retryGo_zero (netAt : Nat → NetOutcome) (username : String)
    (attempt : Nat) (lastError : Option Fault) (delays : List Nat) :
    retryGo netAt username attempt 0 lastError delays
      = ⟨exhaustedRec username lastError, attempt, delays.reverse⟩ := rfl

/-- Defining equation of `retryGo` with remaining iterations. -/
theorem retryGo_succ (netAt : Nat → NetOutcome) (username : String)
    (attempt rem : Nat) (lastError : Option Fault) (delays : List Nat) :
    retryGo netAt username attempt (rem + 1) lastError delays
      = match fetchProfile (netAt attempt) username with
        | .ok record => ⟨record, attempt + 1, delays.reverse⟩
        | .error f =>
          if f.retryable then
            retryGo netAt username (attempt + 1) rem (some f)
              (BASE_DELAY_SECONDS * 2 ^ attempt :: delays)
          else ⟨unexpectedRec username f, attempt + 1, delays.reverse⟩ := rfl

/-- Stepping lemma for `retryGo`: the attempt returns a record. -/
theorem retryGo_ok (netAt : Nat → NetOutcome) (username : String)
    (attempt rem : Nat) (lastError : Option Fault) (delays : List Nat)
    (record : Rec)
    (hp : fetchProfile (netAt attempt) username = .ok record) :
    retryGo netAt username attempt (rem + 1) lastError delays
      = ⟨record, attempt + 1, delays.reverse⟩ := by
  simp [retryGo_succ, hp]

/-- Stepping lemma for `retryGo`: the attempt raises a retryable fault, so the loop sleeps
`BASE_DELAY_SECONDS * 2 ^ attempt` and continues. -/
theorem retryGo_retryable (netAt : Nat → NetOutcome) (username : String)
    (attempt rem : Nat) (lastError : Option Fault) (delays : List Nat)
    (f : Fault) (hp : fetchProfile (netAt attempt) username = .error f)
    (hr : f.retryable = true) :
    retryGo netAt username attempt (rem + 1) lastError delays
      = retryGo netAt username (attempt + 1) rem (some f)
          (BASE_DELAY_SECONDS * 2 ^ attempt :: delays) := by
  simp [retryGo_succ, hp, hr]

/-- Stepping lemma for `retryGo`: the attempt raises a non-retryable fault, handled by the
`except Exception` clause. -/
theorem retryGo_fatal (netAt : Nat → NetOutcome) (username : String)
    (attempt rem : Nat) (lastError : Option Fault) (delays : List Nat)
    (f : Fault) (hp : fetchProfile (netAt attempt) username = .error f)
    (hr : f.retryable = false) :
    retryGo netAt username attempt (rem + 1) lastError delays
      = ⟨unexpectedRec username f, attempt + 1, delays.reverse⟩ := by
  simp [retryGo_succ, hp, hr]

/-- Every record `fetch_with_retries` returns carries an `error` key. -/
theorem retryGo_has_error (netAt : Nat → NetOutcome) (username : String)
    (attempt rem : Nat) (lastError : Option Fault) (delays : List Nat) :
    ∃ v, getKey (retryGo netAt username attempt rem lastError delays).record
      "error" = some v := by
  induction rem generalizing attempt lastError delays with
  | zero => exact ⟨_, rfl⟩
  | succ rem ih =>
    rcases hp : fetchProfile (netAt attempt) username with f | r
    · by_cases hr : f.retryable
      · rw [retryGo_retryable netAt username attempt rem lastError delays f hp hr]
        exact ih _ _ _
      · rw [retryGo_fatal netAt username attempt rem lastError delays f hp
          (by simpa using hr)]
        exact ⟨_, rfl⟩
    · rw [retryGo_ok netAt username attempt rem lastError delays r hp]
      exact fetchProfile_ok_has_error _ _ _ hp

theorem fetchWithRetries_has_error (netAt : Nat → NetOutcome)
    (username : String) :
    ∃ v, getKey (fetchWithRetries netAt username).record "error" = some v :=
  retryGo_has_error netAt username 0 MAX_RETRIES none []

/-- The admission loop appends exactly the nonempty cleaned usernames, in
order. -/
theorem admit_foldl_tasks (usernames : List String) (a : Admission) :
    (usernames.foldl admitStep a).tasks
      = a.tasks ++ (usernames.map cleanUsername).filter (· ≠ "") := by
  induction usernames generalizing a with
  | nil => simp
  | cons hd tl ih =>
    simp only [List.foldl_cons, List.map_cons, List.filter_cons]
    by_cases h : cleanUsername hd = "" <;>
      simp [admitStep, h, ih]

/-- The decremented `total_usernames` counter exactly tracks the number of
launched tasks after the admission loop. -/
theorem admit_foldl_total (usernames : List String) (a : Admission)
    (h : a.total = a.tasks.length + usernames.length) :
    (usernames.foldl admitStep a).total
      = (usernames.foldl admitStep a).tasks.length := by
  induction usernames generalizing a with
  | nil => simpa using h
  | cons hd tl ih =>
    simp only [List.foldl_cons]
    apply ih
    simp only [List.length_cons] at h
    by_cases hc : cleanUsername hd = "" <;>
      simp [admitStep, hc] <;> omega

theorem admitAll_tasks (usernames : List String) :
    (admitAll usernames).tasks
      = (usernames.map cleanUsername).filter (· ≠ "") := by
  simpa using admit_foldl_tasks usernames ⟨usernames.length, []⟩

theorem admitAll_total (usernames : List String) :
    (admitAll usernames).total = (admitAll usernames).tasks.length := by
  apply admit_foldl_total
  simp

/-- Dropped and admitted inputs partition the input list. -/
theorem admitAll_partition (usernames : List String) :
    (admitAll usernames).tasks.length
        + (usernames.countP (fun u => cleanUsername u = ""))
      = usernames.length := by
  rw [admitAll_tasks]
  induction usernames with
  | nil => rfl
  | cons hd tl ih =>
    by_cases h : cleanUsername hd = "" <;>
      simp [h, List.filter_cons, List.countP_cons] at ih ⊢ <;>
      omega

/-- The head of `dropWhile p` never satisfies `p`. -/
theorem head_dropWhile_false {α : Type} (p : α → Bool) (l : List α) (x : α)
    (h : (l.dropWhile p).head? = some x) : p x = false := by
  induction l with
  | nil => cases h
  | cons hd tl ih =>
    by_cases hp : p hd
    · rw [List.dropWhile_cons_of_pos hp] at h
      exact ih h
    · rw [List.dropWhile_cons_of_neg hp] at h
      cases h
      simpa using hp

theorem pyStrip_toList (chars : List Char) (s : String) :
    (pyStrip chars s).toList
      = (((s.toList.dropWhile (chars.contains ·)).reverse.dropWhile
          (chars.contains ·)).reverse) := rfl

/-- Any list splits as the reverse-trimmed core followed by the trimmed
suffix. -/
theorem reverse_dropWhile_decomp {α : Type} (p : α → Bool) (l : List α) :
    l = (l.reverse.dropWhile p).reverse ++ (l.reverse.takeWhile p).reverse := by
  conv_lhs => rw [← List.reverse_reverse l,
    ← List.takeWhile_append_dropWhile (p := p) (l := l.reverse)]
  rw [List.reverse_append]

/-- Stripping only removes characters of the strip set, from the two ends:
the original string is a prefix of strip characters, the stripped result,
and a suffix of strip characters. -/
theorem pyStrip_decomposition (chars : List Char) (s : String) :
    ∃ a b : List Char,
      s.toList = a ++ (pyStrip chars s).toList ++ b
        ∧ (∀ c ∈ a, c ∈ chars) ∧ (∀ c ∈ b, c ∈ chars) := by
  refine ⟨s.toList.takeWhile (chars.contains ·),
    ((s.toList.dropWhile (chars.contains ·)).reverse.takeWhile
      (chars.contains ·)).reverse, ?_, ?_, ?_⟩
  · rw [pyStrip_toList, List.append_assoc]
    conv_lhs => rw [← List.takeWhile_append_dropWhile
      (p := (chars.contains ·)) (l := s.toList)]
    congr 1
    exact reverse_dropWhile_decomp (chars.contains ·)
      (s.toList.dropWhile (chars.contains ·))
  · intro c hc
    simpa using List.mem_takeWhile_imp hc
  · intro c hc
    rw [List.mem_reverse] at hc
    simpa using List.mem_takeWhile_imp hc

/-- The first character surviving `pyStrip` is not a strip character. -/
theorem pyStrip_head (chars : List Char) (s : String) (x : Char)
    (h : (pyStrip chars s).toList.head? = some x) : x ∉ chars := by
  rw [pyStrip_toList] at h
  have hne : ((s.toList.dropWhile (chars.contains ·)).reverse.dropWhile
      (chars.contains ·)).reverse ≠ [] := by
    intro he
    rw [he] at h
    cases h
  have hh : (s.toList.dropWhile (chars.contains ·)).head? = some x := by
    conv_lhs => rw [reverse_dropWhile_decomp (chars.contains ·)
      (s.toList.dropWhile (chars.contains ·))]
    rw [List.head?_append_of_ne_nil _ hne]
    exact h
  have := head_dropWhile_false (chars.contains ·) s.toList x hh
  simpa using this

/-- The last character surviving `pyStrip` is not a strip character. -/
theorem pyStrip_last (chars : List Char) (s : String) (x : Char)
    (h : (pyStrip chars s).toList.getLast? = some x) : x ∉ chars := by
  rw [pyStrip_toList, List.getLast?_reverse] at h
  have := head_dropWhile_false (chars.contains ·)
    (s.toList.dropWhile (chars.contains ·)).reverse x h
  simpa using this

/-- Defining equation of `scanFuel` on a nonempty text with fuel left. -/
theorem scanFuel_succ_cons (matcher : Matcher) (fuel i : Nat)
    (prev : Option Char) (c : Char) (cs : List Char) :
    scanFuel matcher (fuel + 1) i prev (c :: cs)
      = match matcher prev (c :: cs) with
        | some (tok, k) =>
          (i, tok) :: scanFuel matcher fuel (i + max k 1)
            (((c :: cs).take (max k 1)).getLast?) ((c :: cs).drop (max k 1))
        | none => scanFuel matcher fuel (i + 1) (some c) cs := rfl

/-- Every match a scan reports starts at or after the scan's start
position. -/
theorem scanFuel_ge (matcher : Matcher) (fuel : Nat) :
    ∀ (i : Nat) (prev : Option Char) (l : List Char) (q : Nat × String),
      q ∈ scanFuel matcher fuel i prev l → i ≤ q.1 := by
  induction fuel with
  | zero =>
    intro i prev l q h
    cases h
  | succ fuel ih =>
    intro i prev l q h
    match l with
    | [] => cases h
    | c :: cs =>
      rcases hm : matcher prev (c :: cs) with _ | ⟨tok, k⟩
      · rw [scanFuel_succ_cons, hm] at h
        exact le_trans (Nat.le_succ i) (ih _ _ _ _ h)
      · rw [scanFuel_succ_cons, hm] at h
        rcases List.mem_cons.mp h with hq | hq
        · rw [hq]
        · have := ih _ _ _ _ hq
          omega

/-- Match start positions are reported in strictly increasing order: the
scan is first-to-last in the source text. -/
theorem scanFuel_chain (matcher : Matcher) (fuel : Nat) :
    ∀ (i : Nat) (prev : Option Char) (l : List Char),
      List.Chain' (· < ·)
        ((scanFuel matcher fuel i prev l).map Prod.fst) := by
  induction fuel with
  | zero =>
    intro i prev l
    simp [scanFuel]
  | succ fuel ih =>
    intro i prev l
    match l with
    | [] => simp [scanFuel]
    | c :: cs =>
      rcases hm : matcher prev (c :: cs) with _ | ⟨tok, k⟩
      · rw [scanFuel_succ_cons, hm]
        exact ih _ _ _
      · rw [scanFuel_succ_cons, hm]
        rw [List.map_cons, List.chain'_cons']
        refine ⟨?_, ih _ _ _⟩
        intro y hy
        have hmem : ∃ q ∈ scanFuel matcher fuel (i + max k 1)
            (((c :: cs).take (max k 1)).getLast?) ((c :: cs).drop (max k 1)),
            q.1 = y := by
          rcases hh : (scanFuel matcher fuel (i + max k 1)
              (((c :: cs).take (max k 1)).getLast?)
              ((c :: cs).drop (max k 1))) with _ | ⟨q, rest⟩
          · rw [hh] at hy
            cases hy
          · rw [hh] at hy
            simp only [List.map_cons, List.head?_cons, Option.mem_def,
              Option.some.injEq] at hy
            exact ⟨q, List.mem_cons_self _ _, hy⟩
        rcases hmem with ⟨q, hq, hqy⟩
        have := scanFuel_ge matcher fuel _ _ _ _ hq
        have hk : 1 ≤ max k 1 := Nat.le_max_right k 1
        omega

/-- The whole-text scan reports matches in strictly increasing position
order. -/
theorem scanText_chain (matcher : Matcher) (text : String) :
    List.Chain' (· < ·) ((scanText matcher text).map Prod.fst) :=
  scanFuel_chain matcher text.toList.length 0 none text.toList

/-- A non-2xx response makes `fetch_profile` raise `HTTPStatusError`
carrying the status (`raise_for_status` checks `is_success`, i.e.
`200 ≤ status < 300`). -/
theorem fetchProfile_status_error (status : Nat) (body : JValue)
    (username : String) (h : status < 200 ∨ 300 ≤ status) :
    fetchProfile (.ok status body) username
      = .error (.httpStatusError status) := by
  simp [fetchProfile, h]

/-- A 2xx envelope with no (truthy) `user` object makes `fetch_profile`
return the not-found record. -/
theorem fetchProfile_notfound (username : String) (status : Nat)
    (bodyFields dataFields : List (String × JValue))
    (hs1 : 200 ≤ status) (hs2 : status < 300)
    (hd : ((getKey bodyFields "data").getD (.obj [])) = .obj dataFields)
    (hu : ∀ u, getKey dataFields "user" = some u → u.falsy = true) :
    fetchProfile (.ok status (.obj bodyFields)) username
      = .ok (notFoundRec username) := by
  have hs' : ¬(status < 200 ∨ 300 ≤ status) := by omega
  rcases hgd : getKey bodyFields "data" with _ | dataVal
  · rw [hgd] at hd
    simp only [Option.getD_none] at hd
    cases hd
    simp [fetchProfile, pyDictGet, hs', hgd, getKey]
  · rw [hgd] at hd
    simp only [Option.getD_some] at hd
    cases hd
    rcases hgu : getKey dataFields "user" with _ | u
    · simp [fetchProfile, pyDictGet, hs', hgd, hgu]
    · have := hu u hgu
      simp [fetchProfile, pyDictGet, hs', hgd, hgu, this]

/-- A 2xx envelope with a truthy `user` dict makes `fetch_profile` return
the full extraction record. -/
theorem fetchProfile_success (username : String) (status : Nat)
    (bodyFields dataFields userFields : List (String × JValue))
    (hs1 : 200 ≤ status) (hs2 : status < 300)
    (hd : ((getKey bodyFields "data").getD (.obj [])) = .obj dataFields)
    (hu : getKey dataFields "user" = some (.obj userFields))
    (hne : userFields ≠ []) :
    fetchProfile (.ok status (.obj bodyFields)) username
      = .ok (extractRec username userFields) := by
  have hs' : ¬(status < 200 ∨ 300 ≤ status) := by omega
  have hfalsy : (JValue.obj userFields).falsy = false := by
    simp [JValue.falsy, hne]
  rcases hgd : getKey bodyFields "data" with _ | dataVal
  · rw [hgd] at hd
    simp only [Option.getD_none] at hd
    cases hd
    simp [getKey] at hu
  · rw [hgd] at hd
    simp only [Option.getD_some] at hd
    cases hd
    simp [fetchProfile, pyDictGet, hs', hgd, hu, hfalsy]

/-- When all three allowed attempts raise retryable faults, the loop runs
exactly `MAX_RETRIES` times, sleeping `BASE_DELAY_SECONDS * 2 ^ attempt`
after each failure, and returns the exhaustion record naming the last
fault. -/
theorem retry_exhausts (netAt : Nat → NetOutcome) (username : String)
    (fs : Nat → Fault)
    (hf : ∀ n, n < MAX_RETRIES →
      fetchProfile (netAt n) username = .error (fs n))
    (hr : ∀ n, n < MAX_RETRIES → (fs n).retryable = true) :
    fetchWithRetries netAt username
      = ⟨exhaustedRec username (some (fs 2)), MAX_RETRIES,
         [BASE_DELAY_SECONDS * 2 ^ 0, BASE_DELAY_SECONDS * 2 ^ 1,
          BASE_DELAY_SECONDS * 2 ^ 2]⟩ := by
  have h0 := hf 0 (by decide)
  have h1 := hf 1 (by decide)
  have h2 := hf 2 (by decide)
  have r0 := hr 0 (by decide)
  have r1 := hr 1 (by decide)
  have r2 := hr 2 (by decide)
  calc fetchWithRetries netAt username
      = retryGo netAt username 0 (2 + 1) none [] := rfl
    _ = retryGo netAt username 1 (1 + 1) (some (fs 0))
          [BASE_DELAY_SECONDS * 2 ^ 0] := by
        rw [retryGo_retryable netAt username 0 2 none [] (fs 0) h0 r0]
    _ = retryGo netAt username 2 (0 + 1) (some (fs 1))
          [BASE_DELAY_SECONDS * 2 ^ 1, BASE_DELAY_SECONDS * 2 ^ 0] := by
        rw [retryGo_retryable netAt username 1 1 (some (fs 0))
          [BASE_DELAY_SECONDS * 2 ^ 0] (fs 1) h1 r1]
    _ = retryGo netAt username 3 0 (some (fs 2))
          [BASE_DELAY_SECONDS * 2 ^ 2, BASE_DELAY_SECONDS * 2 ^ 1,
           BASE_DELAY_SECONDS * 2 ^ 0] := by
        rw [retryGo_retryable netAt username 2 0 (some (fs 1))
          [BASE_DELAY_SECONDS * 2 ^ 1, BASE_DELAY_SECONDS * 2 ^ 0]
          (fs 2) h2 r2]
    _ = ⟨exhaustedRec username (some (fs 2)), MAX_RETRIES,
         [BASE_DELAY_SECONDS * 2 ^ 0, BASE_DELAY_SECONDS * 2 ^ 1,
          BASE_DELAY_SECONDS * 2 ^ 2]⟩ := rfl

/-- Unfolding lemma: the records of a `main` run, one per admitted task. -/
theorem mainRun_taskRecords (env : Nat → String → Nat → NetOutcome)
    (usernames : List String) (order : List Nat) :
    (mainRun env usernames order).taskRecords
      = (admitAll usernames).tasks.enum.map
          (fun ju => processAndSave (env ju.1 ju.2) ju.2) := rfl

/-- Unfolding lemma: the progress stream of a `main` run. -/
theorem mainRun_progress (env : Nat → String → Nat → NetOutcome)
    (usernames : List String) (order : List Nat) :
    (mainRun env usernames order).progress
      = ((order.map
            (fun i => ((mainRun env usernames order).taskRecords.map
              (·.record)).getD i [])).enum.map
          (fun ir => mkEvent ir.1 ir.2)) := rfl

theorem mainRun_taskRecords_length (env : Nat → String → Nat → NetOutcome)
    (usernames : List String) (order : List Nat) :
    (mainRun env usernames order).taskRecords.length
      = (admitAll usernames).tasks.length := by
  rw [mainRun_taskRecords]
  simp

/-- In a permutation of `range n`, every index below `n` is drained exactly
once. -/
theorem perm_range_count (order : List Nat) (n : Nat)
    (h : order.Perm (List.range n)) (i : Nat) (hi : i < n) :
    order.count i = 1 := by
  rw [h.count_eq]
  exact List.count_eq_one_of_mem (List.nodup_range n) (List.mem_range.mpr hi)

unseal extractRec in
/-- Every `DESIRED_FIELDS` entry other than `error` ends up in the
extraction record with the value `user_data.get(field)` (i.e. `None` when
the remote object lacks it). -/
theorem extractRec_field (username : String)
    (userFields : List (String × JValue)) (f : String)
    (hf : f ∈ DESIRED_FIELDS) (hne : f ≠ "error") :
    getKey (extractRec username userFields) f
      = some ((getKey userFields f).getD .null) := by
  unfold extractRec
  rw [getKey_setKey_ne _ _ _ _ hne]
  exact getKey_fold_mem DESIRED_FIELDS
    (fun field => (getKey userFields field).getD .null)
    [("username", .str username)] f hf

theorem error_not_desired : "error" ∉ DESIRED_FIELDS := by decide

theorem username_desired : "username" ∈ DESIRED_FIELDS := by decide

/-- The function `process_and_save_username` pushes its record to the dataset exactly
when the record's error value is `None`. -/
theorem processAndSave_pushed_iff (netAt : Nat → NetOutcome)
    (username : String) :
    ((processAndSave netAt username).pushed = true
      ↔ getKey (processAndSave netAt username).record "error"
          = some JValue.null) := by
  rcases fetchWithRetries_has_error netAt username with ⟨v, hv⟩
  have hrec : (processAndSave netAt username).record
      = (fetchWithRetries netAt username).record := rfl
  have hpush : (processAndSave netAt username).pushed
      = isNoneVal (getKey (fetchWithRetries netAt username).record "error") :=
    rfl
  rw [hpush, hrec, hv]
  cases v <;> simp [isNoneVal]

/-! ## Claim theorems -/

/-- C1 (counterexample): a primary lookup that always answers HTTP 401 is
retried — three attempts occur, not one, and the returned record is the
retry-exhaustion record, not an authentication-failure record. This refutes
the claim that a 401/403 fault is classified `AuthFatal` with exactly one
stage-1 attempt. -/
theorem c1_counterexample :
    (fetchWithRetries (fun _ => .ok 401 (.obj [])) "alice").attempts = 3
    ∧ (fetchWithRetries (fun _ => .ok 401 (.obj [])) "alice").attempts ≠ 1
    ∧ (fetchWithRetries (fun _ => .ok 401 (.obj [])) "alice").record
        = exhaustedRec "alice" (some (.httpStatusError 401))
    ∧ (fetchWithRetries (fun _ => .ok 401 (.obj [])) "alice").delays
        = [2, 4, 8] :=
  ⟨rfl, by decide, rfl, rfl⟩

/-- C1 (amended): a primary-lookup fault carrying HTTP status 401 or 403 is
caught by the same `except` clause as every other `HTTPStatusError` and is
therefore retryable: the supervisor makes all `MAX_RETRIES` (3) stage-1
attempts, sleeping between them, and finally returns the exhaustion record
`"Failed after 3 attempts: HTTPStatusError"`. No `AuthFatal` classification
and no `AuthFailure` outcome exist in the code. -/
theorem c1_auth_status_retried (username : String) (status : Nat)
    (bodies : Nat → JValue) (netAt : Nat → NetOutcome)
    (hs : status = 401 ∨ status = 403)
    (hnet : ∀ n, netAt n = .ok status (bodies n)) :
    Fault.retryable (.httpStatusError status) = true
    ∧ (fetchWithRetries netAt username).attempts = MAX_RETRIES
    ∧ (fetchWithRetries netAt username).record
        = exhaustedRec username (some (.httpStatusError status))
    ∧ (fetchWithRetries netAt username).delays = [2, 4, 8] := by
  have hcond : status < 200 ∨ 300 ≤ status := by
    rcases hs with h | h <;> omega
  have hf : ∀ n, n < MAX_RETRIES →
      fetchProfile (netAt n) username = .error (.httpStatusError status) := by
    intro n _
    rw [hnet n]
    exact fetchProfile_status_error status (bodies n) username hcond
  rw [retry_exhausts netAt username (fun _ => .httpStatusError status) hf
    (fun _ _ => rfl)]
  exact ⟨rfl, rfl, rfl, rfl⟩

/-- Witness for C1 (amended) at status 401 with empty JSON bodies. -/
theorem c1_auth_status_retried_witness :
    Fault.retryable (.httpStatusError 401) = true
    ∧ (fetchWithRetries (fun _ => .ok 401 (.obj [])) "u").attempts
        = MAX_RETRIES
    ∧ (fetchWithRetries (fun _ => .ok 401 (.obj [])) "u").record
        = exhaustedRec "u" (some (.httpStatusError 401))
    ∧ (fetchWithRetries (fun _ => .ok 401 (.obj [])) "u").delays
        = [2, 4, 8] :=
  c1_auth_status_retried "u" 401 (fun _ => .obj [])
    (fun _ => .ok 401 (.obj [])) (Or.inl rfl) (fun _ => rfl)

/-- C2: when every stage-1 attempt raises a retryable fault (HTTP status
error, proxy failure or read timeout), exactly `MAX_RETRIES` (3) attempts
occur, the wait after attempt `n` is `BASE_DELAY_SECONDS * 2 ^ n` — so the
delays are deterministic and strictly increasing — and the returned record
is the exhaustion record reporting the failure after 3 attempts. -/
theorem c2_retryable_exhaustion (username : String)
    (netAt : Nat → NetOutcome) (fs : Nat → Fault)
    (hf : ∀ n, n < MAX_RETRIES →
      fetchProfile (netAt n) username = .error (fs n))
    (hr : ∀ n, n < MAX_RETRIES → (fs n).retryable = true) :
    (fetchWithRetries netAt username).attempts = MAX_RETRIES
    ∧ (fetchWithRetries netAt username).delays
        = [BASE_DELAY_SECONDS * 2 ^ 0, BASE_DELAY_SECONDS * 2 ^ 1,
           BASE_DELAY_SECONDS * 2 ^ 2]
    ∧ List.Chain' (· < ·) (fetchWithRetries netAt username).delays
    ∧ (fetchWithRetries netAt username).record
        = exhaustedRec username (some (fs 2)) := by
  rw [retry_exhausts netAt username fs hf hr]
  refine ⟨rfl, rfl, ?_, rfl⟩
  show List.Chain' (· < ·)
    [BASE_DELAY_SECONDS * 2 ^ 0, BASE_DELAY_SECONDS * 2 ^ 1,
     BASE_DELAY_SECONDS * 2 ^ 2]
  norm_num [List.chain'_cons, List.chain'_singleton, BASE_DELAY_SECONDS]

/-- Witness for C2 with a permanent read timeout. -/
theorem c2_retryable_exhaustion_witness :
    (fetchWithRetries (fun _ => .fault .readTimeout) "w").attempts
        = MAX_RETRIES
    ∧ (fetchWithRetries (fun _ => .fault .readTimeout) "w").delays
        = [BASE_DELAY_SECONDS * 2 ^ 0, BASE_DELAY_SECONDS * 2 ^ 1,
           BASE_DELAY_SECONDS * 2 ^ 2]
    ∧ List.Chain' (· < ·)
        (fetchWithRetries (fun _ => .fault .readTimeout) "w").delays
    ∧ (fetchWithRetries (fun _ => .fault .readTimeout) "w").record
        = exhaustedRec "w" (some .readTimeout) :=
  c2_retryable_exhaustion "w" (fun _ => .fault .readTimeout)
    (fun _ => .readTimeout) (fun _ _ => rfl) (fun _ _ => rfl)

/-- C7: when the primary lookup returns a 2xx envelope without a truthy
subject object, `fetch_profile` returns (does not raise) the not-found
record at once: the retry supervisor makes exactly one attempt, performs no
backoff sleep, and the terminal record carries only the identifier and the
not-found message — no extraction stage runs. -/
theorem c7_notfound_terminal (username : String) (status : Nat)
    (bodyFields dataFields : List (String × JValue))
    (netAt : Nat → NetOutcome)
    (hs1 : 200 ≤ status) (hs2 : status < 300)
    (hnet : netAt 0 = .ok status (.obj bodyFields))
    (hd : ((getKey bodyFields "data").getD (.obj [])) = .obj dataFields)
    (hu : ∀ u, getKey dataFields "user" = some u → u.falsy = true) :
    fetchProfile (netAt 0) username = .ok (notFoundRec username)
    ∧ fetchWithRetries netAt username = ⟨notFoundRec username, 1, []⟩
    ∧ getKey (notFoundRec username) "error"
        = some (.str "Profile does not exist or is private") := by
  have hp : fetchProfile (netAt 0) username = .ok (notFoundRec username) := by
    rw [hnet]
    exact fetchProfile_notfound username status bodyFields dataFields
      hs1 hs2 hd hu
  refine ⟨hp, ?_, rfl⟩
  calc fetchWithRetries netAt username
      = retryGo netAt username 0 (2 + 1) none [] := rfl
    _ = ⟨notFoundRec username, 0 + 1, List.reverse []⟩ :=
        retryGo_ok netAt username 0 2 none [] _ hp
    _ = ⟨notFoundRec username, 1, []⟩ := rfl

/-- C3 (counterexample): two input entries normalizing to the same handle
are both admitted — the identifier "alice" is processed twice and yields two
terminal records, refuting "no duplicates / no identifier is processed
twice" for batches containing duplicate spellings of one identifier. -/
theorem c3_counterexample :
    (admitAll ["alice", "@alice"]).tasks = ["alice", "alice"]
    ∧ (admitAll ["alice", "@alice"]).tasks.count "alice" = 2
    ∧ ¬(admitAll ["alice", "@alice"]).tasks.Nodup
    ∧ (mainRun (fun _ _ _ => .ok 200 (.obj []))
        ["alice", "@alice"] [0, 1]).taskRecords.map (·.record)
        = [notFoundRec "alice", notFoundRec "alice"] :=
  ⟨rfl, by decide, by decide, rfl⟩

/-- C3 (amended): every admitted input entry yields exactly one terminal
record — record count, batch total and final completed count all equal the
number of admitted entries, and each task index is drained exactly once by
the completion loop. (The orchestrator does not deduplicate, so one
identifier value spelled twice is processed twice.) -/
theorem c3_one_record_per_admission (usernames : List String)
    (env : Nat → String → Nat → NetOutcome) (order : List Nat)
    (h : order.Perm (List.range (admitAll usernames).tasks.length)) :
    (mainRun env usernames order).taskRecords.length
        = (admitAll usernames).tasks.length
    ∧ (mainRun env usernames order).total
        = (admitAll usernames).tasks.length
    ∧ (mainRun env usernames order).completedFinal
        = (mainRun env usernames order).total
    ∧ (mainRun env usernames order).progress.length
        = (mainRun env usernames order).total
    ∧ ∀ i, i < (admitAll usernames).tasks.length → order.count i = 1 := by
  have htot : (mainRun env usernames order).total
      = (admitAll usernames).total := rfl
  have horder : order.length = (admitAll usernames).tasks.length := by
    rw [h.length_eq, List.length_range]
  refine ⟨mainRun_taskRecords_length env usernames order, ?_, ?_, ?_, ?_⟩
  · rw [htot, admitAll_total]
  · show order.length = (mainRun env usernames order).total
    rw [horder, htot, admitAll_total]
  · rw [mainRun_progress]
    simp only [List.length_map, List.enum_length]
    rw [horder, htot, admitAll_total]
  · intro i hi
    exact perm_range_count order _ h i hi

/-- Witness for C3 (amended) on the batch `["alice"]` drained in order
`[0]`. -/
theorem c3_one_record_per_admission_witness :
    (mainRun (fun _ _ _ => .ok 200 (.obj [])) ["alice"] [0]).taskRecords.length
        = (admitAll ["alice"]).tasks.length
    ∧ (mainRun (fun _ _ _ => .ok 200 (.obj [])) ["alice"] [0]).total
        = (admitAll ["alice"]).tasks.length
    ∧ (mainRun (fun _ _ _ => .ok 200 (.obj [])) ["alice"] [0]).completedFinal
        = (mainRun (fun _ _ _ => .ok 200 (.obj [])) ["alice"] [0]).total
    ∧ (mainRun (fun _ _ _ => .ok 200 (.obj [])) ["alice"] [0]).progress.length
        = (mainRun (fun _ _ _ => .ok 200 (.obj [])) ["alice"] [0]).total
    ∧ ∀ i, i < (admitAll ["alice"]).tasks.length → [0].count i = 1 :=
  c3_one_record_per_admission ["alice"] (fun _ _ _ => .ok 200 (.obj [])) [0]
    (by
      rw [show (admitAll ["alice"]).tasks.length = 1 from rfl,
        show List.range 1 = [0] from rfl])

/-- C5 (counterexample): the input `"\t"` is empty after the trimming the
spec describes (leading "@" and surrounding whitespace), yet the code's
`strip("@ ")` leaves it nonempty: it is admitted, counted in the batch
total, and produces a record — refuting "dropped before dispatch, excluded
from the total, no record at all" for whitespace other than the space
character. -/
theorem c5_counterexample :
    specNormalize "\t" = ""
    ∧ cleanUsername "\t" = "\t"
    ∧ cleanUsername "\t" ≠ ""
    ∧ admitAll ["\t"] = ⟨1, ["\t"]⟩
    ∧ (mainRun (fun _ _ _ => .ok 200 (.obj [])) ["\t"] [0]).total = 1
    ∧ (mainRun (fun _ _ _ => .ok 200 (.obj []))
        ["\t"] [0]).taskRecords.map (·.record) = [notFoundRec "\t"] :=
  ⟨by decide, by decide, by decide, by decide, rfl, rfl⟩

/-- C5 (amended): an input whose `strip("@ ")` result is empty is dropped
before dispatch, excluded from the batch total and produces no record: the
total equals the number of inputs with nonempty stripped form, admitted
records plus dropped inputs partition the batch, and every terminal record
stems from an input with nonempty stripped form. (Whitespace other than the
space character does not count as strippable.) -/
theorem c5_strip_empty_dropped (usernames : List String)
    (env : Nat → String → Nat → NetOutcome) (order : List Nat) :
    (mainRun env usernames order).total
        = ((usernames.map cleanUsername).filter (· ≠ "")).length
    ∧ (mainRun env usernames order).taskRecords.length
          + usernames.countP (fun u => cleanUsername u = "")
        = usernames.length
    ∧ ∀ pr ∈ (mainRun env usernames order).taskRecords,
        ∃ j s, s ∈ usernames ∧ cleanUsername s ≠ ""
          ∧ pr = processAndSave (env j (cleanUsername s)) (cleanUsername s) := by
  refine ⟨?_, ?_, ?_⟩
  · show (admitAll usernames).total = _
    rw [admitAll_total, admitAll_tasks]
  · rw [mainRun_taskRecords_length]
    exact admitAll_partition usernames
  · intro pr hpr
    rw [mainRun_taskRecords] at hpr
    rcases List.mem_map.mp hpr with ⟨⟨j, u⟩, hmem, rfl⟩
    have hu : u ∈ (admitAll usernames).tasks :=
      List.getElem?_mem (List.mem_enum_iff_getElem?.mp hmem)
    rw [admitAll_tasks] at hu
    rcases List.mem_filter.mp hu with ⟨humap, hne⟩
    rcases List.mem_map.mp humap with ⟨s, hs, rfl⟩
    exact ⟨j, s, hs, by simpa using hne, rfl⟩

/-- C6 (counterexample): `strip("@ ")` removes the trailing "@" of
`"alice@"`, a character that is neither a leading "@" nor surrounding
whitespace — the admitted identifier differs from the spec's trimming,
refuting "with no other characters removed". -/
theorem c6_counterexample :
    cleanUsername "alice@" = "alice"
    ∧ specNormalize "alice@" = "alice@"
    ∧ cleanUsername "alice@" ≠ specNormalize "alice@"
    ∧ (admitAll ["alice@"]).tasks = ["alice"] :=
  ⟨by decide, by decide, by decide, by decide⟩

/-- C6 (amended): the admitted identifier is the input with every leading
and every trailing character of the set `{'@', ' '}` removed (Python
`strip("@ ")`) and nothing else: the input decomposes as stripped prefix ++
admitted identifier ++ stripped suffix with both ends drawn from that set,
the surviving boundary characters are outside the set, and dispatch admits
exactly the nonempty stripped inputs. -/
theorem c6_strip_characterization (s : String) :
    (∃ a b : List Char,
      s.toList = a ++ (cleanUsername s).toList ++ b
        ∧ (∀ c ∈ a, c = '@' ∨ c = ' ')
        ∧ (∀ c ∈ b, c = '@' ∨ c = ' '))
    ∧ (∀ x, (cleanUsername s).toList.head? = some x → ¬(x = '@' ∨ x = ' '))
    ∧ (∀ x, (cleanUsername s).toList.getLast? = some x → ¬(x = '@' ∨ x = ' '))
    ∧ ∀ usernames : List String,
        (admitAll usernames).tasks
          = (usernames.map cleanUsername).filter (· ≠ "") := by
  refine ⟨?_, ?_, ?_, admitAll_tasks⟩
  · rcases pyStrip_decomposition ['@', ' '] s with ⟨a, b, hab, ha, hb⟩
    refine ⟨a, b, hab, ?_, ?_⟩
    · intro c hc
      simpa using ha c hc
    · intro c hc
      simpa using hb c hc
  · intro x hx hmem
    exact pyStrip_head ['@', ' '] s x hx (by simpa using hmem)
  · intro x hx hmem
    exact pyStrip_last ['@', ' '] s x hx (by simpa using hmem)

/-- Witness for C7 on a 200 envelope whose `user` field is `null`. -/
theorem c7_notfound_terminal_witness :
    fetchProfile
        ((fun _ => NetOutcome.ok 200
          (.obj [("data", .obj [("user", .null)])])) 0) "ghost"
      = .ok (notFoundRec "ghost")
    ∧ fetchWithRetries
        (fun _ => NetOutcome.ok 200 (.obj [("data", .obj [("user", .null)])]))
        "ghost"
      = ⟨notFoundRec "ghost", 1, []⟩
    ∧ getKey (notFoundRec "ghost") "error"
        = some (.str "Profile does not exist or is private") :=
  c7_notfound_terminal "ghost" 200 [("data", .obj [("user", .null)])]
    [("user", .null)]
    (fun _ => .ok 200 (.obj [("data", .obj [("user", .null)])]))
    (by omega) (by omega) rfl rfl (fun u h => by cases h; rfl)

/-- C4 (code evaluation at the failing input): `"username"` itself appears
in `DESIRED_FIELDS`, so the extraction loop silently overwrites the seeded
identifier key: for admitted identifier `"alice"` and a remote user object
without a `"username"` field, the final record's username key is `None`,
not the identifier `"alice"` the record was created with. -/
theorem c4_username_overwritten :
    "username" ∈ DESIRED_FIELDS
    ∧ fetchProfile
        (.ok 200 (.obj [("data",
          .obj [("user", .obj [("full_name", .str "Alice")])])])) "alice"
        = .ok (extractRec "alice" [("full_name", .str "Alice")])
    ∧ getKey (extractRec "alice" [("full_name", .str "Alice")]) "username"
        = some JValue.null
    ∧ some JValue.null ≠ some (JValue.str "alice") := by
  refine ⟨username_desired, rfl, ?_, by simp⟩
  rw [extractRec_field "alice" [("full_name", .str "Alice")] "username"
    username_desired (by decide)]
  rfl

/-- C8: a record is pushed to the dataset sink exactly when its error value
is `None`; the completion loop emits one progress event per drained future,
drains each task index exactly once, and each event carries the drained
record's displayed username and error value (so failed identifiers are
counted in progress yet never pushed). -/
theorem c8_sink_iff_error_null (usernames : List String)
    (env : Nat → String → Nat → NetOutcome) (order : List Nat)
    (h : order.Perm (List.range (admitAll usernames).tasks.length)) :
    (∀ pr ∈ (mainRun env usernames order).taskRecords,
        (pr.pushed = true ↔ getKey pr.record "error" = some JValue.null))
    ∧ (mainRun env usernames order).progress.length
        = (mainRun env usernames order).taskRecords.length
    ∧ (∀ i, i < (mainRun env usernames order).taskRecords.length →
        order.count i = 1)
    ∧ ∀ ev ∈ (mainRun env usernames order).progress,
        ∃ pr ∈ (mainRun env usernames order).taskRecords,
          ev.errorVal = getKey pr.record "error"
          ∧ ev.shownUsername
              = (getKey pr.record "username").getD (.str "N/A") := by
  refine ⟨?_, ?_, ?_, ?_⟩
  · intro pr hpr
    rw [mainRun_taskRecords] at hpr
    rcases List.mem_map.mp hpr with ⟨⟨j, u⟩, _, rfl⟩
    exact processAndSave_pushed_iff (env j u) u
  · rw [mainRun_progress, mainRun_taskRecords_length]
    simp only [List.length_map, List.enum_length]
    rw [h.length_eq, List.length_range]
  · intro i hi
    rw [mainRun_taskRecords_length] at hi
    exact perm_range_count order _ h i hi
  · intro ev hev
    rw [mainRun_progress] at hev
    rcases List.mem_map.mp hev with ⟨⟨idx, r⟩, hmem2, rfl⟩
    have hr : r ∈ order.map
        (fun i => ((mainRun env usernames order).taskRecords.map
          (·.record)).getD i []) :=
      List.getElem?_mem (List.mem_enum_iff_getElem?.mp hmem2)
    rcases List.mem_map.mp hr with ⟨i, hiord, rfl⟩
    have hi : i < (mainRun env usernames order).taskRecords.length := by
      rw [mainRun_taskRecords_length]
      exact List.mem_range.mp (h.mem_iff.mp hiord)
    have hi' : i < ((mainRun env usernames order).taskRecords.map
        (·.record)).length := by
      simpa using hi
    refine ⟨(mainRun env usernames order).taskRecords[i],
      List.getElem_mem hi, ?_, ?_⟩
    · show getKey (((mainRun env usernames order).taskRecords.map
          (·.record)).getD i []) "error" = _
      rw [List.getD_eq_getElem _ _ hi', List.getElem_map]
    · show (getKey (((mainRun env usernames order).taskRecords.map
          (·.record)).getD i []) "username").getD (.str "N/A") = _
      rw [List.getD_eq_getElem _ _ hi', List.getElem_map]

/-- Witness for C8 on the batch `["bob"]` drained in order `[0]`. -/
theorem c8_sink_iff_error_null_witness :
    (∀ pr ∈ (mainRun (fun _ _ _ => .ok 200 (.obj []))
        ["bob"] [0]).taskRecords,
        (pr.pushed = true ↔ getKey pr.record "error" = some JValue.null))
    ∧ (mainRun (fun _ _ _ => .ok 200 (.obj [])) ["bob"] [0]).progress.length
        = (mainRun (fun _ _ _ => .ok 200 (.obj []))
            ["bob"] [0]).taskRecords.length
    ∧ (∀ i, i < (mainRun (fun _ _ _ => .ok 200 (.obj []))
        ["bob"] [0]).taskRecords.length → [0].count i = 1)
    ∧ ∀ ev ∈ (mainRun (fun _ _ _ => .ok 200 (.obj [])) ["bob"] [0]).progress,
        ∃ pr ∈ (mainRun (fun _ _ _ => .ok 200 (.obj []))
            ["bob"] [0]).taskRecords,
          ev.errorVal = getKey pr.record "error"
          ∧ ev.shownUsername
              = (getKey pr.record "username").getD (.str "N/A") :=
  c8_sink_iff_error_null ["bob"] (fun _ _ _ => .ok 200 (.obj [])) [0]
    (by
      rw [show (admitAll ["bob"]).tasks.length = 1 from rfl,
        show List.range 1 = [0] from rfl])

/-- C9 (Text Extractor, modelled from the spec): absent or empty input
yields three empty sequences; each output sequence lists the matches of one
independent scan whose start positions are strictly increasing (first-to-
last order of appearance); duplicates are preserved, as on the spec's own
example text. -/
theorem c9_extractor :
    extract none = ⟨[], [], []⟩
    ∧ extract (some "") = ⟨[], [], []⟩
    ∧ (∀ text : String,
        (extract (some text)).emails = (scanText emailMatch text).map Prod.snd
        ∧ (extract (some text)).phones
            = (scanText phoneMatch text).map Prod.snd
        ∧ (extract (some text)).mentions
            = (scanText mentionMatch text).map Prod.snd)
    ∧ (∀ text : String,
        List.Chain' (· < ·) ((scanText emailMatch text).map Prod.fst)
        ∧ List.Chain' (· < ·) ((scanText phoneMatch text).map Prod.fst)
        ∧ List.Chain' (· < ·) ((scanText mentionMatch text).map Prod.fst))
    ∧ extract (some "contact me at a@b.com or @carol")
        = ⟨["a@b.com"], [], ["carol"]⟩
    ∧ (extract (some "write a@b.co or a@b.co")).emails
        = ["a@b.co", "a@b.co"] := by
  refine ⟨rfl, rfl, ?_, ?_, by decide, by decide⟩
  · intro text
    by_cases he : text.isEmpty
    · rw [(String.isEmpty_iff text).mp he]
      exact ⟨rfl, rfl, rfl⟩
    · simp [extract, he]
  · intro text
    exact ⟨scanText_chain _ _, scanText_chain _ _, scanText_chain _ _⟩

/-- C10: whenever the primary lookup yields a truthy user dict, the success
record carries a key for every name in `DESIRED_FIELDS` — a field absent
from the remote object is present with value `None`, not omitted — plus the
`error` key set to `None`. -/
theorem c10_all_fields_present (username : String) (status : Nat)
    (bodyFields dataFields userFields : List (String × JValue))
    (hs1 : 200 ≤ status) (hs2 : status < 300)
    (hd : ((getKey bodyFields "data").getD (.obj [])) = .obj dataFields)
    (hu : getKey dataFields "user" = some (.obj userFields))
    (hne : userFields ≠ []) :
    fetchProfile (.ok status (.obj bodyFields)) username
        = .ok (extractRec username userFields)
    ∧ (∀ f ∈ DESIRED_FIELDS,
        getKey (extractRec username userFields) f
          = some ((getKey userFields f).getD .null))
    ∧ getKey (extractRec username userFields) "error" = some .null := by
  refine ⟨fetchProfile_success username status bodyFields dataFields
    userFields hs1 hs2 hd hu hne, ?_, extractRec_error username userFields⟩
  intro f hf
  exact extractRec_field username userFields f hf
    (fun he => error_not_desired (he ▸ hf))

/-- Witness for C10 on a 200 envelope whose user object has only an `id`
field. -/
theorem c10_all_fields_present_witness :
    fetchProfile (.ok 200 (.obj [("data",
        .obj [("user", .obj [("id", .str "7")])])])) "alice"
        = .ok (extractRec "alice" [("id", .str "7")])
    ∧ (∀ f ∈ DESIRED_FIELDS,
        getKey (extractRec "alice" [("id", .str "7")]) f
          = some ((getKey [("id", .str "7")] f).getD .null))
    ∧ getKey (extractRec "alice" [("id", .str "7")]) "error" = some .null :=
  c10_all_fields_present "alice" 200
    [("data", .obj [("user", .obj [("id", .str "7")])])]
    [("user", .obj [("id", .str "7")])] [("id", .str "7")]
    (by omega) (by omega) rfl rfl (List.cons_ne_nil _ _)

end InstaScrape
